import Mathlib

/-!
Verification of the wasmtime-py host binding generator
(`crates/gen-host-wasmtime-py/src/lib.rs`).

The definitions below are a shallow embedding of the generator's data model
and of the code-emission logic of `WasmtimePy` and `FunctionBindgen`.  Each
definition carries a comment pointing at the source lines it embeds.  The
theorems at the end of the file settle the behavioural claims about the
generator.
-/

namespace WitBindgen

/-! ## Interface types

Embedding of `wit_parser::Type` as consumed by `py_type_class_of`
(lib.rs:1601-1616) and `array_ty` (lib.rs:101-121).  Compound types are
referenced through their id, which is all `py_type_class_of` inspects. -/

inductive Ty where
  | bool
  | u8
  | u16
  | u32
  | u64
  | s8
  | s16
  | s32
  | s64
  | float32
  | float64
  | char
  | string
  | id (n : Nat)
deriving DecidableEq

/-- Embedding of `PyTypeClass` (lib.rs:1618-1624). -/
inductive PyTypeClass where
  | int
  | str
  | float
  | custom
deriving DecidableEq

/-- Embedding of `py_type_class_of` (lib.rs:1601-1616). -/
def py_type_class_of : Ty → PyTypeClass
  | .bool | .u8 | .u16 | .u32 | .u64 | .s8 | .s16 | .s32 | .s64 => .int
  | .float32 | .float64 => .float
  | .char | .string => .str
  | .id _ => .custom

/-- Embedding of `PyUnionRepresentation` (lib.rs:29-35). -/
inductive PyUnionRepresentation where
  | Raw
  | Wrapped
deriving DecidableEq

/-- The distinct arm type classes collected by `WasmtimePy::type_union`
(lib.rs:253-256): a `BTreeSet` is filled with `py_type_class_of` of every
case; its cardinality is the number of distinct classes, i.e. the length of
the deduplicated list. -/
def unionTypeClasses (cases : List Ty) : List PyTypeClass :=
  (cases.map py_type_class_of).dedup

/-- The representation recorded in `union_representation` by
`WasmtimePy::type_union` (lib.rs:258-269): `Wrapped` when the set of arm
type classes is smaller than the number of cases, `Raw` otherwise. -/
def type_union_representation (cases : List Ty) : PyUnionRepresentation :=
  if (unionTypeClasses cases).length ≠ cases.length then
    PyUnionRepresentation.Wrapped
  else
    PyUnionRepresentation.Raw

/-! ## Integer conversion instructions

Embedding of the integer arms of `FunctionBindgen::emit`
(lib.rs:786-818), together with the `clamp` helper (lib.rs:707-713).
Each arm consumes one operand (a Python expression, represented as a
string) and pushes one result expression. -/

/-- Embedding of `FunctionBindgen::clamp` (lib.rs:707-713), which pushes
the expression `_clamp(operand, min, max)`. -/
def clamp (operand : String) (min max : Int) : String :=
  "_clamp(" ++ operand ++ ", " ++ toString min ++ ", " ++ toString max ++ ")"

/-- The integer-conversion subset of `Instruction` handled at
lib.rs:786-818. -/
inductive Instruction where
  | U8FromI32
  | S8FromI32
  | U16FromI32
  | S16FromI32
  | U32FromI32
  | U64FromI64
  | S32FromI32
  | S64FromI64
  | I32FromU8
  | I32FromS8
  | I32FromU16
  | I32FromS16
  | I32FromU32
  | I32FromS32
  | I64FromU64
  | I64FromS64
deriving DecidableEq

/-- Embedding of the integer arms of `FunctionBindgen::emit`
(lib.rs:786-818): the result expression pushed for one operand.  The
numeric bounds are the Rust `MIN`/`MAX` constants of the corresponding
width, exactly as `format!`ted by the source. -/
def emit : Instruction → String → String
  | .U8FromI32, op => clamp op 0 255
  | .S8FromI32, op => clamp op (-128) 127
  | .U16FromI32, op => clamp op 0 65535
  | .S16FromI32, op => clamp op (-32768) 32767
  | .U32FromI32, op => op ++ " & 0xffffffff"
  | .U64FromI64, op => op ++ " & 0xffffffffffffffff"
  | .S32FromI32, op => op
  | .S64FromI64, op => op
  | .I32FromU8, op => clamp op 0 255
  | .I32FromS8, op => clamp op (-128) 127
  | .I32FromU16, op => clamp op 0 65535
  | .I32FromS16, op => clamp op (-32768) 32767
  | .I32FromU32, op => clamp op 0 4294967295
  | .I32FromS32, op => clamp op (-2147483648) 2147483647
  | .I64FromU64, op => clamp op 0 18446744073709551615
  | .I64FromS64, op => clamp op (-9223372036854775808) 9223372036854775807

/-! ## Bitcasts

Embedding of the `Instruction::Bitcasts` arm of `FunctionBindgen::emit`
(lib.rs:838-870).  Every cast arm only pushes a result expression; none of
them appends a statement to the function body, which the first component
(the emitted statements) records. -/

/-- Embedding of `Bitcast` (wit-parser abi), in the order matched at
lib.rs:840-868. -/
inductive Bitcast where
  | I32ToF32
  | F32ToI32
  | I64ToF64
  | F64ToI64
  | I64ToF32
  | F32ToI64
  | I32ToI64
  | I64ToI32
  | none
deriving DecidableEq

/-- Embedding of one iteration of the `casts.iter().zip(operands)` loop at
lib.rs:839-869: the pair of (statements appended to the body, result
expression pushed). -/
def emitBitcast : Bitcast → String → List String × String
  | .I32ToF32, op => ([], "_i32_to_f32(" ++ op ++ ")")
  | .F32ToI32, op => ([], "_f32_to_i32(" ++ op ++ ")")
  | .I64ToF64, op => ([], "_i64_to_f64(" ++ op ++ ")")
  | .F64ToI64, op => ([], "_f64_to_i64(" ++ op ++ ")")
  | .I64ToF32, op => ([], "_i32_to_f32((" ++ op ++ ") & 0xffffffff)")
  | .F32ToI64, op => ([], "_f32_to_i32(" ++ op ++ ")")
  | .I32ToI64, op => ([], op)
  | .I64ToI32, op => ([], op)
  | .none, op => ([], op)

/-- Embedding of the whole `Instruction::Bitcasts` arm (lib.rs:838-870):
one result per `(cast, operand)` pair. -/
def emitBitcasts (casts : List Bitcast) (operands : List String) : List String :=
  (casts.zip operands).map fun p => (emitBitcast p.1 p.2).2

/-! ## Discriminant dispatch of the lift instructions

The `VariantLift` (lib.rs:1029-1073), `UnionLift` (lib.rs:1143-1189),
`OptionLift` (lib.rs:1223-1251) and `ResultLift` (lib.rs:1292-1321) arms
all emit a Python `if`/`elif`/`else` chain over an integer discriminant.
`LiftChain` is the guard skeleton of such a chain: every branch tests
`discriminant == guard` and, when it matches, constructs the case with the
recorded index; the trailing `else` raises `TypeError(msg)`. -/

inductive LiftChain where
  | elseRaise (msg : String)
  | branch (guard : Nat) (caseIdx : Nat) (rest : LiftChain)

/-- Outcome of running an emitted discriminant chain on a discriminant
value: either some case body is selected or the `else` branch raises. -/
inductive LiftOutcome where
  | case (i : Nat)
  | typeError (msg : String)
deriving DecidableEq

/-- Evaluation of an `if`/`elif`/`else` chain on a discriminant: the first
branch whose guard equals the discriminant is selected; if none matches,
the final `else` raises. -/
def runChain : LiftChain → Nat → LiftOutcome
  | .elseRaise msg, _ => .typeError msg
  | .branch g o rest, d => if d = g then .case o else runChain rest d

/-- A chain with one branch per listed guard, in order, where branch `i`
constructs case `i`.  This is the shape produced by the
`for (i, ...) in cases.iter().enumerate()` emission loops. -/
def chainOfCases (msg : String) : List Nat → LiftChain
  | [] => .elseRaise msg
  | i :: rest => .branch i i (chainOfCases msg rest)

/-- Guard skeleton of the `VariantLift` emission (lib.rs:1029-1073): for
`i` in `0..cases.len()` a branch `op == i` constructing case `i`, then
`else: raise TypeError("invalid variant discriminant for {Name}")`.
`name` is the upper-camel type name interpolated into the message. -/
def variantLiftChain (name : String) (n : Nat) : LiftChain :=
  chainOfCases ("invalid variant discriminant for " ++ name) (List.range n)

/-- Guard skeleton of the `UnionLift` emission (lib.rs:1143-1189): same
discriminant chain as `VariantLift` (the union representation only changes
the branch bodies, not the guards or the `else`). -/
def unionLiftChain (name : String) (n : Nat) : LiftChain :=
  chainOfCases ("invalid variant discriminant for " ++ name) (List.range n)

/-- Guard skeleton of the `OptionLift` emission (lib.rs:1223-1251):
`if op == 0` (None), `elif op == 1` (Some), else raise. -/
def optionLiftChain : LiftChain :=
  .branch 0 0 (.branch 1 1 (.elseRaise "invalid variant discriminant for option"))

/-- Guard skeleton of the `ResultLift` emission (lib.rs:1292-1321):
`if op == 0` (Ok), `elif op == 1` (Err), else raise. -/
def resultLiftChain : LiftChain :=
  .branch 0 0 (.branch 1 1 (.elseRaise "invalid variant discriminant for expected"))

/-! ## General list lowering

Semantics of the statements emitted by the `Instruction::ListLower` arm
(lib.rs:1406-1443):

  vec = <operand>; len = len(vec);
  result = realloc(caller, 0, 0, align, len * size);
  assert(isinstance(result, int))
  for i in range(0, len):
      e = vec[i]
      base = result + i * size
      <body block>
-/

/-- Trace of one `ListLower` execution: the arguments of every `realloc`
call made, and for every loop iteration the pair of values bound to the
element payload `e` and the base payload `base` before the body runs. -/
structure ListLowerTrace (α : Type) where
  reallocCalls : List (Nat × Nat × Nat × Nat)
  iterations : List (Option α × Nat)
deriving DecidableEq

/-- Semantics of the `ListLower` emission (lib.rs:1406-1443) for a vector
`vec`, element size `size` and alignment `align`, where `p` is the pointer
returned by the (single) `realloc` call. -/
def listLowerTrace (p align size : Nat) (vec : List α) : ListLowerTrace α :=
  { reallocCalls := [(0, 0, align, vec.length * size)]
    iterations := (List.range vec.length).map fun i => (vec[i]?, p + i * size) }

/-! ## Flags chunking

Embedding of the `FlagsLower` arm (lib.rs:955-966) and the `FlagsLift` arm
(lib.rs:940-954), at the level of the numeric values of the emitted
expressions.  `bits` is the value of `(v).value` of the Python `Flag`. -/

/-- Numeric semantics of the operands pushed by `FlagsLower`
(lib.rs:955-966): for a one-chunk representation the single operand is the
raw `(v).value`; for `n` chunks, operand `i` is
`(flags >> 32*i) & 0xffffffff` for `i` in `0..n`. -/
def flagsLowerOperands (n : Nat) (bits : Nat) : List Nat :=
  match n with
  | 1 => [bits]
  | n => (List.range n).map fun i => (bits >>> (32 * i)) &&& 0xffffffff

/-- Numeric semantics of the value consumed by `FlagsLift`
(lib.rs:940-954): a single operand is used directly; otherwise
`flags = 0; flags |= op << 32*i` for each operand in order. -/
def flagsLiftBits (operands : List Nat) : Nat :=
  match operands.length with
  | 1 => operands.headD 0
  | _ => operands.enum.foldl (fun acc p => acc ||| (p.2 <<< (32 * p.1))) 0

/-- Modelled from the spec: the number of 32-bit chunks occupied by a
flags type (`FlagsRepr::count` of wit-parser, which is not under `src/`):
up to 16 flags are stored in a single sub-32-bit integer (one chunk), and
otherwise one 32-bit chunk per started group of 32 flags, so 48 declared
flags occupy two chunks. -/
def flags_repr_count (numFlags : Nat) : Nat :=
  if numFlags ≤ 16 then 1 else (numFlags + 31) / 32

/-- Right fold view of the shift-and-or recombination: or the head chunk
with the recombination of the tail shifted left by one 32-bit chunk. -/
def joinChunks : List Nat → Nat
  | [] => 0
  | c :: cs => c ||| (joinChunks cs <<< 32)

/-! ## Identifier casing

The casing conversions come from the external `heck` crate (not under
`src/`); the digit rule and its call sites are in lib.rs. -/

/-- Modelled from the spec: heck's SHOUTY_SNAKE_CASE conversion (the
`heck` crate is an external collaborator).  Interface identifiers separate
words with `-`; the conversion replaces separators with `_` and uppercases
letters, leaving digits unchanged. -/
def to_shouty_snake_case (s : List Char) : List Char :=
  s.map fun c => if c = '-' then '_' else c.toUpper

/-- Modelled from the spec: heck's snake_case conversion (the `heck` crate
is an external collaborator): separators become `_` and letters are
lowercased. -/
def to_snake_case (s : List Char) : List Char :=
  s.map fun c => if c = '-' then '_' else c.toLower

/-- Enum case identifier emitted by `WasmtimePy::type_enum`
(lib.rs:314-327): SHOUTY_SNAKE of the case name, with `_` prepended when
the first character is a digit.  (The source `unwrap`s the first
character, so the empty name is returned unchanged here.) -/
def enum_case_ident (caseName : List Char) : List Char :=
  match to_shouty_snake_case caseName with
  | [] => []
  | c :: rest => if c.isDigit then '_' :: c :: rest else c :: rest

/-- Flag case identifier emitted by `WasmtimePy::type_flags`
(lib.rs:186-191): bare SHOUTY_SNAKE of the flag name, with no digit
handling. -/
def flag_case_ident (flagName : List Char) : List Char :=
  to_shouty_snake_case flagName

/-- Whether an identifier begins with a digit. -/
def starts_with_digit : List Char → Bool
  | [] => false
  | c :: _ => c.isDigit

/-! ## Return instruction and post-return

Embedding of the `Instruction::Return` arm of `FunctionBindgen::emit`
(lib.rs:1537-1563). -/

/-- Statements emitted by the `Return` arm: the post-return trampoline
call `{src_object}._{attr}(caller, ret)` and the `return` statement (the
source renders one operand bare and several as a tuple; both are a single
`ret` statement here). -/
inductive RetStmt where
  | postReturnCall (attr : String)
  | ret (args : List String)
deriving DecidableEq

/-- Embedding of `Export` (lib.rs:55-58): a field of the export registry,
pulled from the guest's exports table during `__init__`. -/
structure ExportField where
  python_type : String
  name : String
deriving DecidableEq

/-- Recognizer for the post-return trampoline call statement. -/
def isPostReturnCall : RetStmt → Bool
  | .postReturnCall _ => true
  | .ret _ => false

/-- Embedding of the `Instruction::Return` arm (lib.rs:1537-1563): when
not in an import and the function's ABI needs a post-return, insert the
`cabi_post_{name}` field into the export registry and emit the
`{src_object}._{snake}(caller, ret)` call; then emit the `return`
statement for 1 or more operands (none for zero).  Returns the emitted
statements and the export-registry insertions. -/
def emitReturn (in_import : Bool) (needs_post_return : Bool) (funcName : String)
    (amt : Nat) (operands : List String) :
    List RetStmt × List (String × ExportField) :=
  let post :=
    if !in_import && needs_post_return then
      ([RetStmt.postReturnCall
          (String.mk (to_snake_case (("cabi_post_" ++ funcName).data)))],
       [(("cabi_post_" ++ funcName),
         (⟨"wasmtime.Func", "cabi_post_" ++ funcName⟩ : ExportField))])
    else ([], [])
  let retStmts :=
    match amt with
    | 0 => []
    | 1 => [RetStmt.ret [operands.headD ""]]
    | _ => [RetStmt.ret operands]
  (post.1 ++ retStmts, post.2)

/-! ## Module finisher

Section skeleton of `WasmtimePy::finish_one` (lib.rs:541-668), after the
import/intrinsics/type preamble: one protocol-plus-linker section per
guest-import interface (lib.rs:578-614), the mypy placeholder class
(lib.rs:616-624), and one export wrapper class per guest-export interface
(lib.rs:626-665). -/

inductive OutSection where
  | importSection (module : String)
  | placeholderClass (iface : String)
  | exportClass (module : String)
deriving DecidableEq

/-- Recognizer for a guest-import protocol/linker section. -/
def isImportSection : OutSection → Bool
  | .importSection _ => true
  | _ => false

/-- Recognizer for a guest-export wrapper class section. -/
def isExportSection : OutSection → Bool
  | .exportClass _ => true
  | _ => false

/-- Embedding of the section order of `finish_one` (lib.rs:578-665).  The
placeholder is emitted exactly when `!self.in_import &&
self.guest_exports.is_empty()` (lib.rs:618). -/
def finishSections (ifaceName : String) (in_import : Bool)
    (guest_imports guest_exports : List String) : List OutSection :=
  (guest_imports.map OutSection.importSection)
    ++ (if !in_import && guest_exports.isEmpty then
          [OutSection.placeholderClass ifaceName]
        else [])
    ++ guest_exports.map OutSection.exportClass

/-! ## Guest-import wrapper prelude

Embedding of the body assembled by `WasmtimePy::export` (lib.rs:404-420):
the memory prelude, the realloc prelude, then the statements produced by
the ABI engine. -/

/-- Kinds of wasm externs a guest can export, as discriminated by the
`isinstance` assertions of the generated wrapper. -/
inductive Extern where
  | memory
  | func
  | global
  | table
deriving DecidableEq

/-- Statements of the generated guest-import wrapper body. -/
inductive WStmt where
  | fetchExport (var : String) (key : String)
  | assertIsInstance (var : String) (ty : String)
  | castBind (dst : String) (src : String)
  | abi (s : String)
deriving DecidableEq

/-- Embedding of the wrapper body assembled at lib.rs:404-420:
`m = caller["memory"]; assert(isinstance(m, wasmtime.Memory));
memory = cast(wasmtime.Memory, m)` when memory is needed,
`realloc = caller["{name}"]; assert(isinstance(realloc, wasmtime.Func))`
when an allocator is needed, then the ABI engine's statements. -/
def exportWrapperBody (needs_memory : Bool) (needs_realloc : Option String)
    (abiSrc : List String) : List WStmt :=
  (if needs_memory then
     [WStmt.fetchExport ("m") ("memory"),
      WStmt.assertIsInstance ("m") ("wasmtime.Memory"),
      WStmt.castBind ("memory") ("m")]
   else [])
    ++ (match needs_realloc with
        | some name =>
          [WStmt.fetchExport ("realloc") name,
           WStmt.assertIsInstance ("realloc") ("wasmtime.Func")]
        | none => [])
    ++ abiSrc.map WStmt.abi

/-- Whether an extern value satisfies an `isinstance` check against a
wasmtime runtime type. -/
def externMatches : Extern → String → Bool
  | .memory, "wasmtime.Memory" => true
  | .func, "wasmtime.Func" => true
  | _, _ => false

/-- Result of running a wrapper body: either it completes, or an
`isinstance` assertion fails (a missing export is modelled as the lookup
yielding nothing, which fails the assertion).  Both record how many ABI
(lift/lower) statements had run by then. -/
inductive RunResult where
  | ok (abiExecuted : Nat)
  | assertionError (abiExecuted : Nat)
deriving DecidableEq

/-- Runtime semantics of a wrapper body against a guest whose exports
table is `caller`: `fetchExport` binds `caller[key]`, `assertIsInstance`
checks the bound extern's runtime type, `castBind` rebinds, and each ABI
statement just counts as executed. -/
def runBody (caller : String → Option Extern) :
    List WStmt → (String → Option Extern) → Nat → RunResult
  | [], _, n => .ok n
  | .fetchExport var key :: rest, env, n =>
      runBody caller rest (fun v => if v = var then caller key else env v) n
  | .assertIsInstance var ty :: rest, env, n =>
      match env var with
      | some e => if externMatches e ty then runBody caller rest env n
                  else .assertionError n
      | none => .assertionError n
  | .castBind dst src :: rest, env, n =>
      runBody caller rest (fun v => if v = dst then env src else env v) n
  | .abi _ :: rest, env, n => runBody caller rest env (n + 1)

/-! ## Helper lemmas -/

theorem runChain_chainOfCases (msg : String) (l : List Nat) (d : Nat) :
    runChain (chainOfCases msg l) d =
      if d ∈ l then LiftOutcome.case d else LiftOutcome.typeError msg := by
  induction l with
  | nil => simp [chainOfCases, runChain]
  | cons g rest ih =>
      simp only [chainOfCases, runChain, List.mem_cons]
      by_cases h : d = g
      · subst h; simp
      · simp [h, ih]

theorem shiftLeft_lor (x y k : Nat) :
    (x ||| y) <<< k = (x <<< k) ||| (y <<< k) := by
  apply Nat.eq_of_testBit_eq
  intro i
  simp [Nat.testBit_shiftLeft, Nat.testBit_or, Bool.and_or_distrib_left]

theorem foldl_enumFrom_lor (l : List Nat) :
    ∀ k acc : Nat,
      (l.enumFrom k).foldl (fun acc p => acc ||| (p.2 <<< (32 * p.1))) acc
        = acc ||| (joinChunks l <<< (32 * k)) := by
  induction l with
  | nil => intro k acc; simp [joinChunks]
  | cons c cs ih =>
      intro k acc
      simp only [List.enumFrom, List.foldl, joinChunks]
      rw [ih (k + 1)]
      rw [shiftLeft_lor, Nat.or_assoc]
      have h32 : 32 * (k + 1) = 32 * k + 32 := by ring
      rw [h32, Nat.shiftLeft_add]
      have hsw : joinChunks cs <<< (32 * k) <<< 32
          = joinChunks cs <<< 32 <<< (32 * k) := by
        rw [← Nat.shiftLeft_add, ← Nat.shiftLeft_add, Nat.add_comm]
      rw [hsw]

theorem flagsLiftBits_eq_joinChunks (ops : List Nat) (h : ops.length ≠ 1) :
    flagsLiftBits ops = joinChunks ops := by
  have hfold : ops.enum.foldl (fun acc p => acc ||| (p.2 <<< (32 * p.1))) 0
      = joinChunks ops := by
    simp only [List.enum]
    rw [foldl_enumFrom_lor]
    simp
  unfold flagsLiftBits
  rcases hl : ops.length with _ | m
  · simp only [hl]
    exact hfold
  · rcases m with _ | m
    · exact absurd hl h
    · simp only [hl]
      exact hfold

theorem mask_ffffffff (x : Nat) : x &&& 0xffffffff = x % 2 ^ 32 := by
  have : (0xffffffff : Nat) = 2 ^ 32 - 1 := by norm_num
  rw [this, Nat.and_pow_two_sub_one_eq_mod]

theorem mod_lor_shiftRight (x k m : Nat) :
    (x % 2 ^ k) ||| (((x >>> k) % 2 ^ m) <<< k) = x % 2 ^ (k + m) := by
  apply Nat.eq_of_testBit_eq
  intro i
  simp only [Nat.testBit_or, Nat.testBit_mod_two_pow, Nat.testBit_shiftLeft,
    Nat.testBit_shiftRight]
  by_cases h1 : i < k
  · have h2 : i < k + m := by omega
    have h3 : ¬ k ≤ i := by omega
    simp [h1, h2, h3]
  · have h3 : k ≤ i := by omega
    have h4 : k + (i - k) = i := by omega
    have h5 : (i - k < m) ↔ (i < k + m) := by omega
    simp [h1, h3, h4, h5]

theorem joinChunks_range_map (n : Nat) : ∀ bits : Nat,
    joinChunks ((List.range n).map fun i => (bits >>> (32 * i)) &&& 0xffffffff)
      = bits % 2 ^ (32 * n) := by
  induction n with
  | zero => intro bits; simp [joinChunks, Nat.mod_one]
  | succ n ih =>
      intro bits
      rw [List.range_succ_eq_map]
      simp only [List.map_cons, List.map_map, joinChunks]
      have ht : ((fun i => (bits >>> (32 * i)) &&& 0xffffffff) ∘ Nat.succ)
          = fun i => ((bits >>> 32) >>> (32 * i)) &&& 0xffffffff := by
        funext i
        simp only [Function.comp_apply, Nat.succ_eq_add_one]
        have h1 : 32 * (i + 1) = 32 + 32 * i := by ring
        rw [h1, Nat.shiftRight_add]
      rw [ht, ih (bits >>> 32)]
      have h0 : 32 * (0 : Nat) = 0 := by ring
      rw [h0, Nat.shiftRight_zero, mask_ffffffff, mod_lor_shiftRight]
      have h2 : 32 + 32 * n = 32 * (n + 1) := by ring
      rw [h2]

theorem flags_roundtrip_aux (n bits : Nat) (h : bits < 2 ^ (32 * n)) :
    flagsLiftBits (flagsLowerOperands n bits) = bits := by
  match n with
  | 0 =>
      have hb : bits = 0 := by
        have : (2 : Nat) ^ (32 * 0) = 1 := by norm_num
        omega
      subst hb
      rfl
  | 1 => rfl
  | (m + 2) =>
      have hlow : flagsLowerOperands (m + 2) bits
          = (List.range (m + 2)).map fun i => (bits >>> (32 * i)) &&& 0xffffffff := by
        rfl
      rw [hlow, flagsLiftBits_eq_joinChunks _ (by simp),
        joinChunks_range_map, Nat.mod_eq_of_lt h]

theorem runBody_abi_list (caller : String → Option Extern) (l : List String) :
    ∀ (env : String → Option Extern) (n : Nat),
      runBody caller (l.map WStmt.abi) env n = RunResult.ok (n + l.length) := by
  induction l with
  | nil => intro env n; simp [runBody]
  | cons s rest ih =>
      intro env n
      simp only [List.map_cons, runBody]
      rw [ih env (n + 1)]
      have : n + 1 + rest.length = n + (rest.length + 1) := by omega
      simp [this]

/-! ## Claims -/

/-- C1. The type emitter computes the `PyTypeClass` of each union arm and
records the union as `Raw` in the union-representation table exactly when
the set of distinct arm type classes has the same cardinality as the
number of arms; a union of `(f32, str, s32)` is recorded `Raw` and a union
of `(s8, s32)` is recorded `Wrapped`. -/
theorem c1_union_representation (cases : List Ty) :
    (type_union_representation cases = PyUnionRepresentation.Raw ↔
        ((cases.map py_type_class_of).toFinset.card = cases.length))
      ∧ type_union_representation [Ty.float32, Ty.string, Ty.s32]
          = PyUnionRepresentation.Raw
      ∧ type_union_representation [Ty.s8, Ty.s32]
          = PyUnionRepresentation.Wrapped := by
  refine ⟨?_, by decide, by decide⟩
  rw [List.card_toFinset]
  unfold type_union_representation unionTypeClasses
  by_cases h : (cases.map py_type_class_of).dedup.length = cases.length <;>
    simp [h]

/-- C2. Integer conversion emission: guest-to-host `u8/s8/u16/s16` wrap
the operand in `_clamp` for their width, `u32` masks with `0xffffffff`,
`u64` masks with `0xffffffffffffffff`, and `s32`/`s64` pass through;
host-to-guest every integer width is wrapped in `_clamp` against that
width's exact range. -/
theorem c2_integer_conversions (op : String) :
    emit Instruction.U8FromI32 op = clamp op 0 255
      ∧ emit Instruction.S8FromI32 op = clamp op (-128) 127
      ∧ emit Instruction.U16FromI32 op = clamp op 0 65535
      ∧ emit Instruction.S16FromI32 op = clamp op (-32768) 32767
      ∧ emit Instruction.U32FromI32 op = op ++ " & 0xffffffff"
      ∧ emit Instruction.U64FromI64 op = op ++ " & 0xffffffffffffffff"
      ∧ emit Instruction.S32FromI32 op = op
      ∧ emit Instruction.S64FromI64 op = op
      ∧ emit Instruction.I32FromU8 op = clamp op 0 255
      ∧ emit Instruction.I32FromS8 op = clamp op (-128) 127
      ∧ emit Instruction.I32FromU16 op = clamp op 0 65535
      ∧ emit Instruction.I32FromS16 op = clamp op (-32768) 32767
      ∧ emit Instruction.I32FromU32 op = clamp op 0 4294967295
      ∧ emit Instruction.I32FromS32 op = clamp op (-2147483648) 2147483647
      ∧ emit Instruction.I64FromU64 op = clamp op 0 18446744073709551615
      ∧ emit Instruction.I64FromS64 op
          = clamp op (-9223372036854775808) 9223372036854775807
      ∧ clamp op 0 255 = "_clamp(" ++ op ++ ", 0, 255)"
      ∧ clamp op (-128) 127 = "_clamp(" ++ op ++ ", -128, 127)" := by
  have t0 : toString (0 : Int) = "0" := by decide
  have t255 : toString (255 : Int) = "255" := by decide
  have tm : toString (-128 : Int) = "-128" := by decide
  have t127 : toString (127 : Int) = "127" := by decide
  have j1 : (", " ++ ("0" ++ (", " ++ ("255" ++ ")")))) = ", 0, 255)" := by decide
  have j2 : (", " ++ ("-128" ++ (", " ++ ("127" ++ ")")))) = ", -128, 127)" := by
    decide
  refine ⟨rfl, rfl, rfl, rfl, rfl, rfl, rfl, rfl, rfl, rfl, rfl, rfl, rfl,
    rfl, rfl, rfl, ?_, ?_⟩
  · simp only [clamp, t0, t255, String.append_assoc, j1]
  · simp only [clamp, tm, t127, String.append_assoc, j2]

/-- C3. Every variant, union, option and result lift dispatches on the
integer discriminant over `0..n-1` in case-declaration order; any other
discriminant, in particular the case count `n` itself, reaches the final
`else` branch which raises a `TypeError` naming the type, so no
discriminant falls through without constructing a case or raising. -/
theorem c3_lift_discriminant_bounds (name : String) (n d : Nat) :
    (runChain (variantLiftChain name n) d
        = if d < n then LiftOutcome.case d
          else LiftOutcome.typeError ("invalid variant discriminant for " ++ name))
      ∧ (runChain (unionLiftChain name n) d
          = if d < n then LiftOutcome.case d
            else LiftOutcome.typeError ("invalid variant discriminant for " ++ name))
      ∧ (runChain optionLiftChain d
          = if d < 2 then LiftOutcome.case d
            else LiftOutcome.typeError ("invalid variant discriminant for option"))
      ∧ (runChain resultLiftChain d
          = if d < 2 then LiftOutcome.case d
            else LiftOutcome.typeError ("invalid variant discriminant for expected"))
      ∧ runChain (variantLiftChain name n) n
          = LiftOutcome.typeError ("invalid variant discriminant for " ++ name)
      ∧ runChain (unionLiftChain name n) n
          = LiftOutcome.typeError ("invalid variant discriminant for " ++ name) := by
  have hv : ∀ m k : Nat,
      runChain (chainOfCases ("invalid variant discriminant for " ++ name)
          (List.range m)) k
        = if k < m then LiftOutcome.case k
          else LiftOutcome.typeError ("invalid variant discriminant for " ++ name) := by
    intro m k
    rw [runChain_chainOfCases]
    simp [List.mem_range]
  have hopt : runChain optionLiftChain d
      = if d < 2 then LiftOutcome.case d
        else LiftOutcome.typeError ("invalid variant discriminant for option") := by
    rcases d with _ | _ | d
    · simp [optionLiftChain, runChain]
    · simp [optionLiftChain, runChain]
    · have h0 : d + 1 + 1 ≠ 0 := by omega
      have h1 : d + 1 + 1 ≠ 1 := by omega
      have h2 : ¬ (d + 1 + 1 < 2) := by omega
      simp [optionLiftChain, runChain, h0, h1, h2]
  have hres : runChain resultLiftChain d
      = if d < 2 then LiftOutcome.case d
        else LiftOutcome.typeError ("invalid variant discriminant for expected") := by
    rcases d with _ | _ | d
    · simp [resultLiftChain, runChain]
    · simp [resultLiftChain, runChain]
    · have h0 : d + 1 + 1 ≠ 0 := by omega
      have h1 : d + 1 + 1 ≠ 1 := by omega
      have h2 : ¬ (d + 1 + 1 < 2) := by omega
      simp [resultLiftChain, runChain, h0, h1, h2]
  refine ⟨hv n d, hv n d, hopt, hres, ?_, ?_⟩ <;>
    · show runChain (chainOfCases ("invalid variant discriminant for " ++ name)
          (List.range n)) n = _
      rw [hv n n]
      simp

/-- C6. Each of the eight bitcasts between i32/i64/f32/f64 is emitted as a
single call to its intrinsic, `I64ToF32` masking the operand with
`& 0xffffffff` before `_i32_to_f32`, `F32ToI64` delegating to
`_f32_to_i32`, and `I32ToI64`, `I64ToI32` and `None` pushing the operand
unchanged; no bitcast arm emits any statement. -/
theorem c6_bitcasts (op : String) :
    emitBitcast Bitcast.I32ToF32 op = ([], "_i32_to_f32(" ++ op ++ ")")
      ∧ emitBitcast Bitcast.F32ToI32 op = ([], "_f32_to_i32(" ++ op ++ ")")
      ∧ emitBitcast Bitcast.I64ToF64 op = ([], "_i64_to_f64(" ++ op ++ ")")
      ∧ emitBitcast Bitcast.F64ToI64 op = ([], "_f64_to_i64(" ++ op ++ ")")
      ∧ emitBitcast Bitcast.I64ToF32 op
          = ([], "_i32_to_f32((" ++ op ++ ") & 0xffffffff)")
      ∧ emitBitcast Bitcast.F32ToI64 op = ([], "_f32_to_i32(" ++ op ++ ")")
      ∧ emitBitcast Bitcast.I32ToI64 op = ([], op)
      ∧ emitBitcast Bitcast.I64ToI32 op = ([], op)
      ∧ emitBitcast Bitcast.none op = ([], op)
      ∧ (∀ c : Bitcast, (emitBitcast c op).1 = [])
      ∧ (∀ casts : List Bitcast, ∀ operands : List String,
          emitBitcasts casts operands
            = (casts.zip operands).map fun p => (emitBitcast p.1 p.2).2) := by
  refine ⟨rfl, rfl, rfl, rfl, rfl, rfl, rfl, rfl, rfl, ?_, fun _ _ => rfl⟩
  intro c
  cases c <;> rfl

/-- C4. General list lowering computes `n = len(v)`, calls `realloc`
exactly once with `(caller, 0, 0, align, n * size)`, and on iteration `i`
binds the element payload to `v[i]` and the base payload to `p + i*size`;
for `size = 12` the base equals `p + 12*i` and the realloc size argument
equals `12 * len`. -/
theorem c4_list_lower {α : Type} (p align size : Nat) (vec : List α) :
    (listLowerTrace p align size vec).reallocCalls
        = [(0, 0, align, vec.length * size)]
      ∧ (listLowerTrace p align size vec).iterations.length = vec.length
      ∧ (∀ i : Nat, (listLowerTrace p align size vec).iterations[i]?
          = if i < vec.length then some (vec[i]?, p + i * size) else none)
      ∧ (∀ i : Nat, (listLowerTrace p align 12 vec).iterations[i]?
          = if i < vec.length then some (vec[i]?, p + 12 * i) else none)
      ∧ (listLowerTrace p align 12 vec).reallocCalls
          = [(0, 0, align, 12 * vec.length)] := by
  refine ⟨rfl, by simp [listLowerTrace], ?_, ?_, by simp [listLowerTrace, Nat.mul_comm]⟩
  · intro i
    by_cases h : i < vec.length
    · simp [listLowerTrace, List.getElem?_map, List.getElem?_range, h]
    · simp [listLowerTrace, List.getElem?_map, List.getElem?_range, h]
      omega
  · intro i
    by_cases h : i < vec.length
    · simp [listLowerTrace, List.getElem?_map, List.getElem?_range, h,
        Nat.mul_comm]
    · simp [listLowerTrace, List.getElem?_map, List.getElem?_range, h,
        Nat.mul_comm]
      omega

/-- C5. Flags lowering yields `value.bits` for one chunk and the masked
shifted chunks `(bits >> 32*i) & 0xffffffff` for `n` chunks; lifting by
shift-and-or reconstructs the original bits, and for the two chunks of a
48-flag type `(hi << 32) | lo` equals the flag bits. -/
theorem c5_flags_chunking (n bits : Nat) (h : bits < 2 ^ (32 * n)) :
    flagsLiftBits (flagsLowerOperands n bits) = bits
      ∧ flagsLowerOperands 1 bits = [bits]
      ∧ (∀ m : Nat, m ≠ 1 → flagsLowerOperands m bits
            = (List.range m).map fun i => (bits >>> (32 * i)) &&& 0xffffffff)
      ∧ flags_repr_count 48 = 2
      ∧ (n = 2 →
          (((flagsLowerOperands 2 bits).getD 1 0) <<< 32)
              ||| ((flagsLowerOperands 2 bits).getD 0 0) = bits) := by
  refine ⟨flags_roundtrip_aux n bits h, rfl, ?_, by decide, ?_⟩
  · intro m hm
    rcases m with _ | _ | m
    · rfl
    · exact absurd rfl hm
    · rfl
  · intro hn
    subst hn
    have e2 : flagsLowerOperands 2 bits
        = [bits &&& 0xffffffff, (bits >>> 32) &&& 0xffffffff] := rfl
    rw [e2]
    simp only [List.getD_cons_zero, List.getD_cons_succ]
    rw [Nat.or_comm, mask_ffffffff, mask_ffffffff, mod_lor_shiftRight]
    have h64 : (32 : Nat) + 32 = 32 * 2 := by ring
    rw [h64]
    exact Nat.mod_eq_of_lt h

/-- Witness for C5: two chunks and a concrete 41-bit flags value. -/
theorem c5_flags_chunking_witness :
    ((2 : Nat) ^ 40 + 5 < 2 ^ (32 * 2))
      ∧ flagsLiftBits (flagsLowerOperands 2 (2 ^ 40 + 5)) = 2 ^ 40 + 5 :=
  ⟨by norm_num, (c5_flags_chunking 2 (2 ^ 40 + 5) (by norm_num)).1⟩

/-- C7. For an exported-direction function needing post-return, the
emitted statements are exactly one `_cabi_post_<name>`-trampoline call
placed before the return statement, and the export registry gains a
`wasmtime.Func` field for the `cabi_post_<name>` symbol; otherwise no
trampoline call and no registry insertion happen. -/
theorem c7_post_return (imp post : Bool) (funcName : String) (amt : Nat)
    (ops : List String) :
    (emitReturn imp post funcName amt ops).1
        = (if imp = false ∧ post = true
            then [RetStmt.postReturnCall
                (String.mk (to_snake_case (("cabi_post_" ++ funcName).data)))]
            else [])
          ++ (emitReturn true false funcName amt ops).1
      ∧ ((emitReturn true false funcName amt ops).1.countP isPostReturnCall = 0)
      ∧ ((emitReturn imp post funcName amt ops).1.countP isPostReturnCall
          = if imp = false ∧ post = true then 1 else 0)
      ∧ (emitReturn imp post funcName amt ops).2
          = (if imp = false ∧ post = true
              then [("cabi_post_" ++ funcName,
                  (⟨"wasmtime.Func", "cabi_post_" ++ funcName⟩ : ExportField))]
              else []) := by
  cases imp <;> cases post <;> rcases amt with _ | _ | k <;>
    simp [emitReturn, isPostReturnCall, List.countP_cons, List.countP_nil]

/-- C8 counterexample: the flag case `2big` is emitted by `type_flags` as
the identifier `2BIG`, which begins with a digit; no underscore is
prepended for flag cases, refuting the claim for that identifier kind. -/
theorem c8_counterexample :
    flag_case_ident (("2big").data) = ("2BIG").data
      ∧ starts_with_digit (flag_case_ident (("2big").data)) = true := by
  decide

/-- C8 (amended). Only the enum-case emitter applies the
underscore-for-digit rule: an emitted enum case identifier never begins
with a digit, while flag case identifiers are the bare SHOUTY_SNAKE
conversion and may begin with a digit. -/
theorem c8_digit_rule (s : List Char) :
    starts_with_digit (enum_case_ident s) = false
      ∧ flag_case_ident s = to_shouty_snake_case s := by
  refine ⟨?_, rfl⟩
  unfold enum_case_ident
  split
  · rfl
  · rename_i c rest heq
    by_cases hd : c.isDigit
    · rw [if_pos hd]
      show ('_').isDigit = false
      decide
    · rw [if_neg hd]
      show c.isDigit = false
      exact Bool.eq_false_iff.mpr hd

/-- C9 counterexample: finishing an interface in the guest-import
direction (`in_import = true`) with no functions at all yields an output
with no import section and no export class, yet no placeholder class is
emitted, refuting the claimed "if and only if". -/
theorem c9_counterexample :
    ¬ ((OutSection.placeholderClass ("empty")
          ∈ finishSections ("empty") true [] [])
        ↔ ((finishSections ("empty") true [] []).countP isExportSection = 0
            ∧ (finishSections ("empty") true [] []).countP isImportSection = 0)) := by
  decide

/-- C9 (amended). The placeholder class is emitted iff the finisher runs
with `in_import = false` and the guest-export registry is empty; in the
`in_import = true` pass no placeholder is emitted even when the output
contains neither imports nor exports. -/
theorem c9_placeholder (name : String) (imp : Bool) (gi ge : List String) :
    (OutSection.placeholderClass name ∈ finishSections name imp gi ge)
      ↔ (imp = false ∧ ge = []) := by
  cases imp <;> cases ge <;>
    simp [finishSections, List.mem_append, List.mem_map]

/-- C10. A guest-import wrapper needing linear memory first fetches
`caller["memory"]` and asserts it is a `wasmtime.Memory` (and fetches and
asserts the realloc export when needed) before any ABI statement; against
a guest with no export named `memory` of memory type, the assertion fails
with zero ABI statements executed, while a guest exporting `memory`
passes the prelude and runs the whole body. -/
theorem c10_memory_prelude (nm : Bool) (nr : Option String) (abiSrc : List String)
    (caller : String → Option Extern)
    (h : caller ("memory") ≠ some Extern.memory) :
    ((exportWrapperBody true nr abiSrc).take 2
        = [WStmt.fetchExport ("m") ("memory"),
           WStmt.assertIsInstance ("m") ("wasmtime.Memory")])
      ∧ (∀ name : String, exportWrapperBody nm (some name) abiSrc
          = (if nm then
               [WStmt.fetchExport ("m") ("memory"),
                WStmt.assertIsInstance ("m") ("wasmtime.Memory"),
                WStmt.castBind ("memory") ("m")]
             else [])
            ++ ([WStmt.fetchExport ("realloc") name,
                 WStmt.assertIsInstance ("realloc") ("wasmtime.Func")]
              ++ abiSrc.map WStmt.abi))
      ∧ (runBody caller (exportWrapperBody true nr abiSrc) (fun _ => none) 0
          = RunResult.assertionError 0)
      ∧ (runBody (fun k => if k = "memory" then some Extern.memory else none)
            (exportWrapperBody true none abiSrc) (fun _ => none) 0
          = RunResult.ok abiSrc.length) := by
  have hbody : exportWrapperBody true nr abiSrc
      = WStmt.fetchExport ("m") ("memory")
        :: WStmt.assertIsInstance ("m") ("wasmtime.Memory")
        :: WStmt.castBind ("memory") ("m")
        :: ((match nr with
             | some name =>
               [WStmt.fetchExport ("realloc") name,
                WStmt.assertIsInstance ("realloc") ("wasmtime.Func")]
             | none => []) ++ abiSrc.map WStmt.abi) := by
    rcases nr with _ | name <;> rfl
  refine ⟨by rcases nr with _ | name <;> rfl, by intro name; cases nm <;> rfl,
    ?_, ?_⟩
  · rw [hbody]
    rcases hcm : caller ("memory") with _ | e
    · simp [runBody, hcm]
    · rcases e with _ | _ | _ | _
      · exact absurd hcm h
      · have hf : externMatches Extern.func ("wasmtime.Memory") = false := by
          decide
        simp [runBody, hcm, hf]
      · have hg : externMatches Extern.global ("wasmtime.Memory") = false := by
          decide
        simp [runBody, hcm, hg]
      · have ht : externMatches Extern.table ("wasmtime.Memory") = false := by
          decide
        simp [runBody, hcm, ht]
  · have hm : externMatches Extern.memory ("wasmtime.Memory") = true := by decide
    have hb2 : exportWrapperBody true none abiSrc
        = WStmt.fetchExport ("m") ("memory")
          :: WStmt.assertIsInstance ("m") ("wasmtime.Memory")
          :: WStmt.castBind ("memory") ("m")
          :: abiSrc.map WStmt.abi := rfl
    rw [hb2]
    simp [runBody, hm, runBody_abi_list]

/-- Witness for C10: a guest whose exports table is empty fails the
memory assertion before any ABI statement runs. -/
theorem c10_memory_prelude_witness :
    ((fun _ => (none : Option Extern)) ("memory") ≠ some Extern.memory)
      ∧ runBody (fun _ => (none : Option Extern))
          (exportWrapperBody true none [("lift")]) (fun _ => none) 0
          = RunResult.assertionError 0 :=
  ⟨by decide, (c10_memory_prelude true none [("lift")] (fun _ => none)
      (by decide)).2.2.1⟩

end WitBindgen
